import Mathlib

/-!
# MindustryLauncher — verification of the version-resolution and
# process-supervision subsystem

Shallow embedding of `build/mindustrylauncher.js` and `build/funcs.js`
(the current compiled sources of the repository).  Strings are modelled
as `List Char`; the Node constructs that touch the outside world
(HTTPS requests, the filesystem, child processes) are modelled as
explicit oracle parameters or explicit state threaded through the
functions, so that every definition is executable.
-/

/-- Strings of the JS program are modelled as lists of characters. -/
abbrev Str := List Char

/-- Coerce a Lean string literal into the model's string type. -/
def str (s : String) : Str := s.data

/-- Removes the first occurrence of `pat` from a list, as
`String.prototype.replace(pat, "")` does for string patterns.
An empty pattern occurs at position 0, so the list is unchanged. -/
def removeFirstOcc (pat : Str) : Str → Str
  | [] => []
  | c :: rest =>
    if pat.isPrefixOf (c :: rest) then (c :: rest).drop pat.length
    else c :: removeFirstOcc pat rest

/-- Model of node `path.join(a, b)` restricted to the inputs this
program builds: no `.`/`..` segments and no repeated separators other
than a single boundary slash, which node collapses. -/
def pathJoin (a b : Str) : Str :=
  if a = [] then b
  else if b = [] then a
  else
    match a.getLast?, b with
    | some '/', '/' :: b2 => a ++ b2
    | _, '/' :: _ => a ++ b
    | some '/', _ => a ++ b
    | _, _ => a ++ '/' :: b

/-- The four entries of the `versionUrls` registry, in the insertion
order of the object literal (`Object.entries` iterates in that order). -/
inductive FamilyName
  | foo
  | fooV6
  | be
  | vanilla
deriving Repr, DecidableEq

/-- The `prefix` field of each `versionUrls` entry. -/
def prefixOf : FamilyName → Str
  | .foo => str "foo-"
  | .fooV6 => str "foo-v6-"
  | .be => str "be-"
  | .vanilla => str ""

/-- The literal token that triggers latest-version resolution. -/
def latestTok : Str := str "latest"

/-- Language of the regex `/^(\d+|latest)$/` used as `numberValidator`
by the `foo`, `foo-v6` and `be` families. -/
def intNumOk (s : Str) : Bool :=
  (!s.isEmpty && s.all Char.isDigit) || s == latestTok

/-- Language of the regex `/^(\d+(?:\.\d+)?|latest)$/` used as
`numberValidator` by the `vanilla` family. -/
def decimalNumOk (s : Str) : Bool :=
  (!(s.takeWhile Char.isDigit).isEmpty &&
    (match s.dropWhile Char.isDigit with
     | [] => true
     | '.' :: frac => !frac.isEmpty && frac.all Char.isDigit
     | _ => false)) || s == latestTok

/-- The `numberValidator` regex of each registry entry, as a decidable
predicate on the candidate number string. -/
def numberValidator : FamilyName → Str → Bool
  | .vanilla, s => decimalNumOk s
  | _, s => intNumOk s

/-- Registry iteration order of `Object.entries(versionUrls)`. -/
def familyOrder : List FamilyName := [.foo, .fooV6, .be, .vanilla]

/-- One iteration of the registry loop in `Version.fromInput`: if the
family's prefix starts the version string and the remainder (after
`version.replace(prefix, "")`) passes the family's `numberValidator`,
the loop variables are overwritten, otherwise they are kept.  The two
variables `versionType`/`versionNumber` are always assigned together,
so they are modelled as one optional pair. -/
def scanStep (version : Str) (st : Option (FamilyName × Str)) (fam : FamilyName) :
    Option (FamilyName × Str) :=
  if (prefixOf fam).isPrefixOf version then
    let potential := removeFirstOcc (prefixOf fam) version
    if numberValidator fam potential then some (fam, potential) else st
  else st

/-- The whole registry loop of `Version.fromInput` (no `break`: a later
structurally-matching entry overwrites an earlier one). -/
def scanFamilies (version : Str) : Option (FamilyName × Str) :=
  familyOrder.foldl (scanStep version) none

/-- A family structurally matches a version string when its prefix
starts the string and the stripped remainder passes its validator. -/
def structMatches (fam : FamilyName) (version : Str) : Bool :=
  (prefixOf fam).isPrefixOf version &&
    numberValidator fam (removeFirstOcc (prefixOf fam) version)

/-- An HTTPS response as far as `resolveRedirect` inspects it. -/
structure HttpResponse where
  statusCode : Nat
  location : Option Str
deriving Repr, DecidableEq

/-- Outcome of the `resolveRedirect` promise. -/
inductive RedirectOutcome
  | notFound
  | unexpectedStatus (status : Nat)
  | missingLocation
  | resolved (target : Str)
deriving Repr, DecidableEq

/-- The settle attempts of `resolveRedirect` in `funcs.js`, in program
order: the status check may reject first (404 is special-cased), and
then the location check settles the promise; a promise keeps only its
first settlement. -/
def resolveRedirectSettles (res : HttpResponse) : List RedirectOutcome :=
  (if res.statusCode ≠ 302 then
    [if res.statusCode = 404 then .notFound else .unexpectedStatus res.statusCode]
   else []) ++
  (match res.location with
   | some loc => [.resolved loc]
   | none => [.missingLocation])

/-- Behaviour of `resolveRedirect` on one response: the first
settlement wins (the settle list is never empty, so the default is
unreachable).  The function consumes exactly one response: it never
follows a second hop and never retries. -/
def resolveRedirect (res : HttpResponse) : RedirectOutcome :=
  (resolveRedirectSettles res).headD .missingLocation

/-- Error message carried by each rejecting outcome of
`resolveRedirect`, so redirect failures propagate as thrown strings. -/
def redirectOutcomeToExcept : RedirectOutcome → Except Str Str
  | .resolved target => .ok target
  | .notFound => .error (str "Version does not exist.")
  | .unexpectedStatus status =>
      .error (str "Error: Expected status 302, got " ++ (toString status).data
  )
  | .missingLocation => .error (str "Error: Server did not respond with redirect location.")

/-- Leftmost-match regex scan with a fixed-width lookbehind: at each
position of the subject the reversed prefix is checked against the
reversed lookbehind and `cap` tries to match at that position, exactly
as the JS engine scans for `(?<=lb)...`. -/
def execLookbehind (lb : Str) (cap : Str → Option Str) (rprev : Str) : Str → Option Str
  | [] => none
  | c :: rest =>
    match (if rprev.take lb.length == lb.reverse then cap (c :: rest) else none) with
    | some r => some r
    | none => execLookbehind lb cap (c :: rprev) rest

/-- Capture of `(\d+)` at a position: a non-empty maximal digit run. -/
def digitsCap (s : Str) : Option Str :=
  let d := s.takeWhile Char.isDigit
  if d.isEmpty then none else some d

/-- Capture of `(\d+(?:\.\d)?)` at a position: a non-empty maximal
digit run, greedily extended by a dot and one digit when present. -/
def decimalCap (s : Str) : Option Str :=
  let d := s.takeWhile Char.isDigit
  if d.isEmpty then none
  else
    match s.drop d.length with
    | c2 :: c3 :: _ => if c2 = '.' ∧ c3.isDigit then some (d ++ [c2, c3]) else some d
    | _ => some d

/-- The `getLatestVersion[1]` extraction pattern of each registry
entry, applied to a resolved redirect target:
`/(?<=\/tag\/)(\d+)/` for foo, foo-v6 and be, and
`/(?<=\/tag\/v)(\d+(?:\.\d)?)/` for vanilla. -/
def execLatestPattern (fam : FamilyName) (url : Str) : Option Str :=
  match fam with
  | .vanilla => execLookbehind (str "/tag/v") decimalCap [] url
  | _ => execLookbehind (str "/tag/") digitsCap [] url

/-- `Version.getLatestVersion`: resolve the family's latest-release
URL (the response is an oracle parameter) and extract the version
number with the family's pattern; a pattern miss throws. -/
def getLatestVersion (latestResponse : FamilyName → HttpResponse) (fam : FamilyName) :
    Except Str Str :=
  match redirectOutcomeToExcept (resolveRedirect (latestResponse fam)) with
  | .error e => .error e
  | .ok resolvedUrl =>
    match execLatestPattern fam resolvedUrl with
    | some n => .ok n
    | none => .error (str "regex did not match resolved url " ++ resolvedUrl)

/-- The resolved `Version` instance (constructor arguments of
`new Version(path, isCustom, isSourceDirectory, versionType, versionNumber)`). -/
structure VersionRec where
  path : Str
  isCustom : Bool
  isSourceDirectory : Bool
  versionType : Option FamilyName
  versionNumber : Option Str
deriving Repr, DecidableEq

/-- Filesystem probes used by `Version.fromInput`'s custom branch. -/
structure FSModel where
  pathExists : Str → Bool
  isDirectory : Str → Bool
  accessOk : Str → Bool
deriving Inhabited

/-- JS truthiness of `customVersionNames[version]`: the property must
be present and its value must not be the empty string. -/
def lookupTruthy (m : List (Str × Str)) (k : Str) : Option Str :=
  match m.lookup k with
  | some v => if v = [] then none else some v
  | none => none

/-- `Version.fromInput`: custom name lookup first; otherwise the
registry scan, the `"latest"` rewrite (via `getLatestVersion`, whose
network step is the `latestResponse` oracle) and the standard artifact
path computation.  `fail`/`crash` become `Except.error`. -/
def fromInput (fsm : FSModel) (latestResponse : FamilyName → HttpResponse)
    (customVersionNames : List (Str × Str)) (folderPath : Str) (version : Str) :
    Except Str VersionRec :=
  match lookupTruthy customVersionNames version with
  | some filepath =>
    if !fsm.pathExists filepath then
      .error (str "Invalid custom version: specified filepath does not exist.")
    else if fsm.isDirectory filepath then
      if !fsm.accessOk (pathJoin filepath (str "/desktop/build.gradle")) then
        .error (str "Invalid custom version: Unable to find a build.gradle.")
      else .ok ⟨filepath, true, true, none, none⟩
    else .ok ⟨filepath, true, false, none, none⟩
  | none =>
    match scanFamilies version with
    | none => .error (str "Invalid version " ++ version)
    | some (versionType, versionNumber) =>
      match (if versionNumber == latestTok
             then getLatestVersion latestResponse versionType
             else .ok versionNumber) with
      | .error e => .error e
      | .ok finalNumber =>
        .ok ⟨pathJoin folderPath
              (str "v" ++ prefixOf versionType ++ finalNumber ++ str ".jar"),
             false, false, some versionType, some finalNumber⟩

/-- `Version.builtJarLocation`. -/
def builtJarLocation : Str := str "desktop/build/libs/Mindustry.jar"

/-- `Version.jarFilePath`. -/
def jarFilePath (v : VersionRec) : Str :=
  if v.isSourceDirectory then pathJoin v.path builtJarLocation else v.path

/-- A set of paths that currently exist on disk. -/
def FsPaths := List Str

/-- Filesystem membership test. -/
def existsPath (p : Str) (fs : FsPaths) : Bool := fs.contains p

/-- Create a file (idempotent). -/
def insertPath (p : Str) (fs : FsPaths) : FsPaths :=
  if fs.contains p then fs else p :: fs

/-- Remove a file. -/
def removePath (p : Str) (fs : FsPaths) : FsPaths :=
  fs.filter (fun q => !(q == p))

/-- Outcome oracles for one run of `Version.download`: the response to
the asset-URL redirect GET and the response status of the download
GET — in both cases `none` means no response ever arrives and the
request's `error` event fires instead; `resolveRedirect` and
`downloadFile` attach no `error` listener and the repository installs
no `uncaughtException` handler, so that event is unhandled, the
promise never settles, and the process dies — and whether the
`fsP.rename` promise fulfils. -/
structure DlEnv where
  assetRedirect : Option HttpResponse
  httpStatus : Option Nat
  renameOk : Bool

/-- `Version.getDownloadUrl`: crash on a non-family version and on a
still-`"latest"` number (both thrown, hence caught by `download`'s
`try`), then one redirect resolution; returns the jar name used to
build the output path (the URL itself is not needed by the model).
The outer `none` is a raw network error on the redirect GET: the
unhandled `error` event kills the process, so no value — not even a
rejection — is ever produced. -/
def getDownloadUrl (assetRedirect : Option HttpResponse) (v : VersionRec) :
    Option (Except Str Str) :=
  match v.versionType, v.versionNumber with
  | some versionType, some versionNumber =>
    if versionNumber == latestTok then
      some (.error (str "Logic error: version's number was 'latest'."))
    else
      match assetRedirect with
      | none => none
      | some res =>
        match redirectOutcomeToExcept (resolveRedirect res) with
        | .error e => some (.error e)
        | .ok _ => some (.ok (str "v" ++ prefixOf versionType ++ versionNumber ++ str ".jar"))
  | _, _ => some (.error (str "Logic error at lookupDownloadUrl"))

/-- `Version.download(state)`: everything runs inside a `try` that
returns `false` on any thrown error or settled (rejected) promise.
The body streams to `filePath + ".tmp"` (the write stream creates
that file as soon as a response arrives, even for a rejected status)
and only `fsP.rename` ever touches the final path.  A raw network
error on either GET is not among the caught failures: the request's
`error` event has no listener, so it is unhandled, the enclosing
promise never settles, and the process is killed before `download`
can return — modelled as `none`.  Otherwise `some` of the filesystem
afterwards and the boolean result. -/
def download (env : DlEnv) (v : VersionRec) (folderPath : Str) (fs : FsPaths) :
    Option (FsPaths × Bool) :=
  match getDownloadUrl env.assetRedirect v with
  | none => none
  | some (.error _) => some (fs, false)
  | some (.ok jarName) =>
    let filePath := pathJoin folderPath jarName
    match env.httpStatus with
    | none => none
    | some status =>
      let fs1 := insertPath (filePath ++ str ".tmp") fs
      if status = 404 then some (fs1, false)
      else if status ≠ 200 then some (fs1, false)
      else if env.renameOk then
        some (insertPath filePath (removePath (filePath ++ str ".tmp") fs1), true)
      else some (fs1, false)

/-- A child-process handle as the supervisor sees it: its identity,
how many listeners are attached to it, and whether its stdin stream is
writable. -/
structure ChildProc where
  pid : Nat
  listenerCount : Nat
  stdinWritable : Bool
deriving Repr, DecidableEq

/-- The mutable fields of the launcher `State` that the supervisor
touches, plus a fresh pid supply for spawns. -/
structure LauncherState where
  mindustryProcess : Option ChildProc
  buildMods : Bool
  versionIsSourceDirectory : Bool
  nextPid : Nat
deriving Repr, DecidableEq

/-- Oracles for the effectful collaborators of `restart`: whether
`compileDirectory` succeeds and whether `copyMods` completes without
calling `fail`. -/
structure ProcEnv where
  compileOk : Bool
  copyModsOk : Bool
deriving Repr, DecidableEq

/-- Observable actions of the supervisor, in program order. -/
inductive SupEvent
  | logged (msg : Str)
  | removedAllListeners (pid : Nat)
  | sentSigterm (pid : Nat)
  | compileInvoked
  | copyModsInvoked
  | spawned (pid : Nat)
  | wroteChildStdin (data : Str)
deriving Repr, DecidableEq

/-- `startProcess`: spawn a fresh child and register the single `exit`
listener on it. -/
def startProcess (st : LauncherState) : ChildProc :=
  { pid := st.nextPid, listenerCount := 1, stdinWritable := true }

/-- Message logged at the top of `restart` for each flag combination. -/
def restartLogMsg (build compile : Bool) : Str :=
  if build && compile then str "Rebuilding mods, recompiling, and restarting..."
  else if build then str "Rebuilding mods and restarting..."
  else if compile then str "Recompiling client..."
  else str "Restarting..."

/-- `restart(state, build, compile)`: log; detach all listeners from
the old child and send it SIGTERM; null the handle; set
`state.buildMods = build`; maybe compile (a failed compile is
`process.exit(1)`, so restart never completes — modelled as `none`,
as is a `fail` inside `copyMods`); copy mods; spawn the replacement.
Returns the new state, the old handle as it is left after the restart,
and the event trace. -/
def restart (env : ProcEnv) (st : LauncherState) (build compile : Bool) :
    Option (LauncherState × Option ChildProc × List SupEvent) :=
  let detachEvents : List SupEvent :=
    match st.mindustryProcess with
    | some p => [.removedAllListeners p.pid, .sentSigterm p.pid]
    | none => []
  let oldProc := st.mindustryProcess.map (fun p => { p with listenerCount := 0 })
  let st1 : LauncherState := { st with mindustryProcess := none, buildMods := build }
  if compile && st.versionIsSourceDirectory && !env.compileOk then
    none
  else
    let compileEvents : List SupEvent :=
      if compile && st.versionIsSourceDirectory then [.compileInvoked]
      else if compile then
        [.logged (str "Cannot compile, launched version did not come from a source directory.")]
      else []
    if !env.copyModsOk then none
    else
      let newProc := startProcess st1
      some ({ st1 with mindustryProcess := some newProc, nextPid := st1.nextPid + 1 },
        oldProc,
        .logged (restartLogMsg build compile) :: detachEvents ++ compileEvents ++
          [.copyModsInvoked, .spawned newProc.pid])

/-- The child's `exit` listener registered by `startProcess`: a zero
status leaves `process.exitCode` at its default 0; a truthy (non-zero,
non-null) status is stored in `process.exitCode`; `process.exit()`
then terminates with that code.  Returns the launcher's exit code. -/
def childExitHandler (statusCode : Option Int) : Int :=
  if statusCode = some 0 then 0
  else
    match statusCode with
    | some n => n
    | none => 0

/-- `input.split(" ")[0]`. -/
def firstSpaceToken (s : Str) : Str := s.takeWhile (fun c => !(c == ' '))

/-- `input.split(" ").slice(1).join(" ")`: everything after the first
space (empty when there is no space). -/
def restAfterFirstToken (s : Str) : Str := (s.dropWhile (fun c => !(c == ' '))).drop 1

/-- The command tokens recognised by `handleCommand`'s `switch`. -/
def recognizedTokens : List Str :=
  [str "rs", str "restart", str "rb", str "rebuild", str "rc", str "recompile",
   str "?", str "h", str "help", str "exit", str "e", str "q", str "quit",
   str "pass", str "-", str "p"]

/-- Lift a restart outcome into the command result: a completed
restart yields the new state and its events, an aborted one is
`process.exit(1)`. -/
def restartOutcome (r : Option (LauncherState × Option ChildProc × List SupEvent)) :
    Except Int LauncherState × List SupEvent :=
  match r with
  | some (st2, _, evs) => (.ok st2, evs)
  | none => (.error 1, [])

/-- `handleCommand(input, state)`: dispatch on the lowercased first
space-delimited token.  `Except.error code` means the launcher process
itself exited with that code; `Except.ok` is the state afterwards. -/
def handleCommand (env : ProcEnv) (input : Str) (st : LauncherState) :
    Except Int LauncherState × List SupEvent :=
  let tok := (firstSpaceToken input).map Char.toLower
  if tok == str "rs" || tok == str "restart" then
    restartOutcome (restart env st false false)
  else if tok == str "rb" || tok == str "rebuild" then
    restartOutcome (restart env st true false)
  else if tok == str "rc" || tok == str "recompile" then
    restartOutcome (restart env st false true)
  else if tok == str "?" || tok == str "h" || tok == str "help" then
    (.ok st,
     [.logged (str "Commands: 'restart/rs', 'rebuild/rb', 'recompile/rc', 'help/h/?', 'exit/e/quit/q'")])
  else if tok == str "exit" || tok == str "e" || tok == str "q" || tok == str "quit" then
    (.error 0,
     .logged (str "Exiting...") ::
       (match st.mindustryProcess with
        | some p => [.removedAllListeners p.pid, .sentSigterm p.pid]
        | none => []))
  else if tok == str "pass" || tok == str "-" || tok == str "p" then
    match st.mindustryProcess with
    | some p =>
      if p.stdinWritable then
        (.ok st, [.wroteChildStdin (restAfterFirstToken input ++ ['\r', '\n'])])
      else (.ok st, [.logged (str "Error: Stream not writeable.")])
    | none => (.ok st, [.logged (str "Error: Stream not writeable.")])
  else
    (.ok st, [.logged (str "Unknown command.")])

/-- `Array.prototype.slice(s, e)` for in-range non-negative indices
(an empty slice when `s ≥ e`). -/
def jsSlice (l : List Str) (s e : Nat) : List Str := (l.drop s).take (e - s)

/-- `Array.prototype.indexOf` for a present element (total model: the
callers guard with `includes`). -/
def firstIdxOf (a : Str) : List Str → Nat
  | [] => 0
  | b :: rest => if b == a then 0 else firstIdxOf a rest + 1

/-- `Array.prototype.lastIndexOf` for a present element. -/
def lastIdxOf (a : Str) (l : List Str) : Nat :=
  l.length - 1 - firstIdxOf a l.reverse

/-- The positional-argument split of `init` combined with the settings
concatenation of the returned state: produces
`(jvmArgs, mindustryArgs)` = (settings JVM args ++ CLI JVM args,
settings process args ++ CLI application args). -/
def initArgs (settingsJvmArgs settingsProcessArgs positionalArgs : List Str) :
    List Str × List Str :=
  let dd := str "--"
  if positionalArgs.contains dd then
    (settingsJvmArgs ++
       jsSlice positionalArgs (firstIdxOf dd positionalArgs + 1) (lastIdxOf dd positionalArgs),
     settingsProcessArgs ++ positionalArgs.drop (lastIdxOf dd positionalArgs + 1))
  else
    (settingsJvmArgs, settingsProcessArgs ++ positionalArgs)

/-- `String.prototype.replaceAll` for a non-empty string pattern:
non-overlapping left-to-right replacement.  The `fuel` argument makes
the recursion structural (a match consumes at least one character, so
fuel equal to the subject's length never runs out); an empty pattern
leaves the subject unchanged in this model — the program only censors
non-empty keywords. -/
def jsReplaceAllFuel (pat repl : Str) : Nat → Str → Str
  | _, [] => []
  | 0, s => s
  | fuel + 1, c :: rest =>
    if pat ≠ [] ∧ pat.isPrefixOf (c :: rest) then
      repl ++ jsReplaceAllFuel pat repl fuel ((c :: rest).drop pat.length)
    else c :: jsReplaceAllFuel pat repl fuel rest

/-- `String.prototype.replaceAll` on the whole subject. -/
def jsReplaceAll (pat repl s : Str) : Str := jsReplaceAllFuel pat repl s.length s

/-- Does `pat` occur as a contiguous substring? -/
def hasOccurrence (pat : Str) : Str → Bool
  | [] => pat == []
  | c :: rest => pat.isPrefixOf (c :: rest) || hasOccurrence pat rest

/-- `CensorKeywordTransform._transform` on one chunk: stateless, no
buffering — just `chunk.toString().replaceAll(keyword, replace)`. -/
def censorChunk (keyword replace chunk : Str) : Str :=
  jsReplaceAll keyword replace chunk

/-- The transform applied to a whole stream of chunks: because the
transform keeps no state, each chunk is processed independently. -/
def censorStream (keyword replace : Str) (chunks : List Str) : List Str :=
  chunks.map (censorChunk keyword replace)

/-! ## Shared helper lemmas -/

/-- A list is never equal to itself extended by a non-empty suffix. -/
theorem ne_append_cons (l : Str) (c : Char) (cs : Str) : l ≠ l ++ c :: cs := by
  intro h
  have := congrArg List.length h
  simp at this

/-- A list starts with itself. -/
theorem isPrefixOf_append_self (p r : Str) : p.isPrefixOf (p ++ r) = true := by
  induction p with
  | nil => simp
  | cons c cs ih => simp [List.isPrefixOf_cons₂, ih]

/-- Stripping the first occurrence of a leading pattern removes
exactly that pattern. -/
theorem removeFirstOcc_append (p r : Str) : removeFirstOcc p (p ++ r) = r := by
  cases p with
  | nil =>
    cases r with
    | nil => rfl
    | cons c t => simp [removeFirstOcc]
  | cons c cs =>
    show removeFirstOcc (c :: cs) (c :: (cs ++ r)) = r
    rw [removeFirstOcc]
    have hp : (c :: cs).isPrefixOf (c :: (cs ++ r)) = true :=
      isPrefixOf_append_self (c :: cs) r
    rw [if_pos hp]
    exact List.drop_left (c :: cs) r

/-- Stripping an empty pattern is the identity. -/
theorem removeFirstOcc_nil (s : Str) : removeFirstOcc [] s = s := by
  cases s with
  | nil => rfl
  | cons c t => simp [removeFirstOcc]

/-- A cons pattern with a different head character is not a prefix. -/
theorem not_isPrefixOf_head {c h : Char} (cs t : Str) (hne : h ≠ c) :
    (c :: cs).isPrefixOf (h :: t) = false := by
  have hb : (c == h) = false := beq_eq_false_iff_ne.mpr (fun hx => hne hx.symm)
  simp [List.isPrefixOf_cons₂, hb]

/-! ## C4: resolveRedirect -/

/-- Modelled from the claim's words, as the refinement target for C4:
404 rejects not-found; any other status that is not exactly 302
rejects with the actual status; a 302 without a location header
rejects missing-location; a 302 with a location resolves to it. -/
def redirectClaimBehavior (res : HttpResponse) : RedirectOutcome :=
  if res.statusCode = 404 then .notFound
  else if res.statusCode ≠ 302 then .unexpectedStatus res.statusCode
  else
    match res.location with
    | some loc => .resolved loc
    | none => .missingLocation

/-- C4: for every response, `resolveRedirect` behaves exactly as the
claim describes: it rejects a 404 with a not-found error, rejects any
other non-302 status with an error carrying that status, rejects a
302 without a location header with a missing-location error, and
resolves with the location value only on a 302 that has one.  The
model consumes a single response, so no second hop is followed and no
retry happens. -/
theorem c4_resolveRedirect_matches_claim (res : HttpResponse) :
    resolveRedirect res = redirectClaimBehavior res := by
  rcases res with ⟨s, loc⟩
  by_cases h4 : s = 404
  · subst h4
    cases loc <;> simp [resolveRedirect, resolveRedirectSettles, redirectClaimBehavior]
  · by_cases h2 : s = 302
    · subst h2
      cases loc <;>
        simp [resolveRedirect, resolveRedirectSettles, redirectClaimBehavior, h4]
    · cases loc <;>
        simp [resolveRedirect, resolveRedirectSettles, redirectClaimBehavior, h4, h2]

/-! ## C8: exit-code forwarding -/

/-- C8: a clean child exit (status 0) terminates the launcher with
exit code 0, and any non-zero child exit status is forwarded verbatim
as the launcher's own exit code. -/
theorem c8_exit_code_forwarded :
    childExitHandler (some 0) = 0 ∧
    ∀ n : Int, n ≠ 0 → childExitHandler (some n) = n := by
  refine ⟨rfl, fun n hn => ?_⟩
  unfold childExitHandler
  rw [if_neg (fun h => hn (Option.some.inj h))]

/-- Witness for C8 at the concrete crash status 137. -/
theorem c8_exit_code_forwarded_witness :
    (137 : Int) ≠ 0 ∧ childExitHandler (some 137) = 137 :=
  ⟨by decide, c8_exit_code_forwarded.2 137 (by decide)⟩

/-! ## C10: CensorKeywordTransform -/

/-- A subject without any occurrence of a non-empty keyword passes
through `replaceAll` unchanged (any fuel). -/
theorem jsReplaceAllFuel_no_occurrence (pat repl : Str) (_hp : pat ≠ []) :
    ∀ (fuel : Nat) (s : Str), hasOccurrence pat s = false →
      jsReplaceAllFuel pat repl fuel s = s := by
  intro fuel
  induction fuel with
  | zero => intro s _; cases s <;> rfl
  | succ fuel ih =>
    intro s hs
    cases s with
    | nil => rfl
    | cons c rest =>
      have hsplit := hs
      rw [hasOccurrence] at hsplit
      rcases Bool.or_eq_false_iff.mp hsplit with ⟨hpre, hrest⟩
      rw [jsReplaceAllFuel, if_neg (fun hx => by rw [hx.2] at hpre; exact absurd hpre (by simp))]
      rw [ih rest hrest]

/-- C10: the transform is stateless — a stream of chunks is censored
chunk by chunk with `replaceAll` (conjunct 1); a chunk containing no
occurrence of the keyword is emitted unchanged (conjunct 2); an
occurrence wholly inside one chunk is replaced (conjunct 3, concrete);
but an occurrence of `"user"` split across the consecutive chunks
`"us"` and `"er"` is emitted unreplaced, so the keyword survives in
the concatenated output (conjuncts 4 and 5, concrete). -/
theorem c10_censor_per_chunk :
    (∀ keyword replace chunks,
      censorStream keyword replace chunks =
        chunks.map (jsReplaceAll keyword replace)) ∧
    (∀ keyword replace chunk, keyword ≠ [] →
      hasOccurrence keyword chunk = false →
      censorChunk keyword replace chunk = chunk) ∧
    censorStream (str "user") (str "[USERNAME]") [str "a user b"] =
      [str "a [USERNAME] b"] ∧
    censorStream (str "user") (str "[USERNAME]") [str "us", str "er"] =
      [str "us", str "er"] ∧
    hasOccurrence (str "user") (str "us" ++ str "er") = true := by
  refine ⟨fun _ _ _ => rfl, fun keyword replace chunk hk hocc => ?_, by decide, by decide, by decide⟩
  exact jsReplaceAllFuel_no_occurrence keyword replace hk chunk.length chunk hocc

/-- Witness for C10's hypothesised conjunct at a concrete
keyword-free chunk. -/
theorem c10_censor_per_chunk_witness :
    str "user" ≠ [] ∧
    hasOccurrence (str "user") (str "abc") = false ∧
    censorChunk (str "user") (str "[USERNAME]") (str "abc") = str "abc" :=
  ⟨by decide, by decide,
   c10_censor_per_chunk.2.1 (str "user") (str "[USERNAME]") (str "abc") (by decide) (by decide)⟩

/-! ## C5 and C7: restart -/

/-- Closed form of `restart` when a child is currently tracked. -/
theorem restart_some_proc (cok mok : Bool) (p : ChildProc) (bm src : Bool) (np : Nat)
    (build compile : Bool) :
    restart ⟨cok, mok⟩ ⟨some p, bm, src, np⟩ build compile =
      if compile && src && !cok then none
      else if !mok then none
      else
        some (⟨some ⟨np, 1, true⟩, build, src, np + 1⟩,
          some { p with listenerCount := 0 },
          .logged (restartLogMsg build compile) ::
            [.removedAllListeners p.pid, .sentSigterm p.pid] ++
            (if compile && src then [.compileInvoked]
             else if compile then
               [.logged (str "Cannot compile, launched version did not come from a source directory.")]
             else []) ++ [.copyModsInvoked, .spawned np]) := rfl

/-- C5: when `restart` completes while a child `p` was tracked, the
state afterwards tracks exactly one handle — the newly spawned child
(pid `st.nextPid`, carrying only its freshly registered exit
listener) — the old handle is left with zero listeners, and the event
trace detaches `p`'s listeners and sends `p` SIGTERM strictly before
the replacement is spawned (the spawn is the last event). -/
theorem c5_restart_single_owner (env : ProcEnv) (st : LauncherState)
    (build compile : Bool) (p : ChildProc) (st2 : LauncherState)
    (old : Option ChildProc) (evs : List SupEvent)
    (hp : st.mindustryProcess = some p)
    (h : restart env st build compile = some (st2, old, evs)) :
    st2.mindustryProcess = some ⟨st.nextPid, 1, true⟩ ∧
    old = some { p with listenerCount := 0 } ∧
    ∃ mid, evs = .logged (restartLogMsg build compile) ::
      .removedAllListeners p.pid :: .sentSigterm p.pid ::
        (mid ++ [.copyModsInvoked, .spawned st.nextPid]) := by
  rcases env with ⟨cok, mok⟩
  rcases st with ⟨mp, bm, src, np⟩
  simp only at hp
  subst hp
  rw [restart_some_proc] at h
  by_cases h1 : (compile && src && !cok) = true
  · rw [if_pos h1] at h
    exact absurd h (by simp)
  · rw [if_neg h1] at h
    by_cases h2 : (!mok) = true
    · rw [if_pos h2] at h
      exact absurd h (by simp)
    · rw [if_neg h2] at h
      have h3 := Option.some.inj h
      rw [Prod.mk.injEq, Prod.mk.injEq] at h3
      obtain ⟨hst2, hold, hevs⟩ := h3
      subst hst2
      subst hold
      subst hevs
      refine ⟨rfl, rfl, ?_⟩
      refine ⟨(if compile && src then [.compileInvoked]
        else if compile then
          [.logged (str "Cannot compile, launched version did not come from a source directory.")]
        else []), ?_⟩
      simp

/-- Witness for C5: a plain restart (`rs`) from a state tracking the
child with pid 7 and one listener. -/
theorem c5_restart_single_owner_witness :
    (⟨some ⟨7, 1, true⟩, false, false, 9⟩ : LauncherState).mindustryProcess =
      some ⟨7, 1, true⟩ ∧
    restart ⟨true, true⟩ ⟨some ⟨7, 1, true⟩, false, false, 9⟩ false false =
      some (⟨some ⟨9, 1, true⟩, false, false, 10⟩, some ⟨7, 0, true⟩,
        [.logged (restartLogMsg false false), .removedAllListeners 7, .sentSigterm 7,
         .copyModsInvoked, .spawned 9]) ∧
    ((⟨some ⟨9, 1, true⟩, false, false, 10⟩ : LauncherState).mindustryProcess =
        some ⟨9, 1, true⟩ ∧
      (some ⟨7, 0, true⟩ : Option ChildProc) = some ⟨7, 0, true⟩ ∧
      ∃ mid, ([.logged (restartLogMsg false false), .removedAllListeners 7, .sentSigterm 7,
         .copyModsInvoked, .spawned 9] : List SupEvent) =
        .logged (restartLogMsg false false) :: .removedAllListeners 7 :: .sentSigterm 7 ::
          (mid ++ [.copyModsInvoked, .spawned 9])) :=
  ⟨rfl, rfl,
   c5_restart_single_owner ⟨true, true⟩ ⟨some ⟨7, 1, true⟩, false, false, 9⟩
     false false ⟨7, 1, true⟩ _ _ _ rfl rfl⟩

/-- C7 counterexample: invoking `restart` with both the rebuild flag
and the recompile flag true (from a source-directory version, with no
tracked child) does not proceed as a plain restart — it sets
`buildMods := true` and invokes the compile step, so both flags'
effects are applied rather than dropped. -/
theorem c7_counterexample_both_flags :
    (restart ⟨true, true⟩ ⟨none, false, true, 1⟩ true true).map
        (fun r => (r.1.buildMods, r.2.2.contains SupEvent.compileInvoked)) =
      some (true, true) := by decide

/-- C7 (amended): when `restart` is invoked with both flags true it
logs a combined message and applies both effects — the state is
marked for a mod rebuild (`buildMods = true`) and, when the active
version is a source directory, the compile step is invoked (when it
is not, the compile step is skipped with a logged error). -/
theorem c7_both_flags_apply_both (env : ProcEnv) (st : LauncherState)
    (st2 : LauncherState) (old : Option ChildProc) (evs : List SupEvent)
    (h : restart env st true true = some (st2, old, evs)) :
    st2.buildMods = true ∧
    evs[0]? = some (.logged (str "Rebuilding mods, recompiling, and restarting...")) ∧
    (st.versionIsSourceDirectory = true → SupEvent.compileInvoked ∈ evs) ∧
    (st.versionIsSourceDirectory = false → SupEvent.compileInvoked ∉ evs) := by
  rcases env with ⟨cok, mok⟩
  rcases st with ⟨mp, bm, src, np⟩
  cases mp <;> cases src <;> cases cok <;> cases mok <;>
    simp only [restart, startProcess] at h <;>
    simp only [Bool.and_true, Bool.and_false, Bool.and_self, Bool.not_true, Bool.not_false,
      if_true, if_false, reduceCtorEq, Option.some.injEq, Prod.mk.injEq, false_and,
      Bool.false_eq_true, if_neg, ite_true, ite_false] at h <;>
    (obtain ⟨hst2, hold, hevs⟩ := h
     subst hst2
     subst hold
     subst hevs
     refine ⟨rfl, rfl, ?_, ?_⟩ <;> simp [restartLogMsg])

/-- Witness for C7's amended theorem at the counterexample input. -/
theorem c7_both_flags_witness :
    restart ⟨true, true⟩ ⟨none, false, true, 1⟩ true true =
      some (⟨some ⟨1, 1, true⟩, true, true, 2⟩, none,
        [.logged (str "Rebuilding mods, recompiling, and restarting..."),
         .compileInvoked, .copyModsInvoked, .spawned 1]) ∧
    ((⟨some ⟨1, 1, true⟩, true, true, 2⟩ : LauncherState).buildMods = true ∧
      ([.logged (str "Rebuilding mods, recompiling, and restarting..."),
        .compileInvoked, .copyModsInvoked, .spawned 1] : List SupEvent)[0]? =
        some (.logged (str "Rebuilding mods, recompiling, and restarting...")) ∧
      ((⟨none, false, true, 1⟩ : LauncherState).versionIsSourceDirectory = true →
        SupEvent.compileInvoked ∈
          ([.logged (str "Rebuilding mods, recompiling, and restarting..."),
            .compileInvoked, .copyModsInvoked, .spawned 1] : List SupEvent)) ∧
      ((⟨none, false, true, 1⟩ : LauncherState).versionIsSourceDirectory = false →
        SupEvent.compileInvoked ∉
          ([.logged (str "Rebuilding mods, recompiling, and restarting..."),
            .compileInvoked, .copyModsInvoked, .spawned 1] : List SupEvent))) :=
  ⟨rfl, c7_both_flags_apply_both ⟨true, true⟩ ⟨none, false, true, 1⟩ _ _ _ rfl⟩

/-! ## C9: unknown interactive command -/

/-- C9: when the lowercased first space-delimited token of an input
line is none of the recognized commands, `handleCommand` only logs
"Unknown command.": the launcher keeps running (`Except.ok`), the
state object is returned unchanged in every field, and no restart,
kill, spawn or child-stdin write happens. -/
theorem c9_unknown_command_is_noop (env : ProcEnv) (input : Str) (st : LauncherState)
    (h : (firstSpaceToken input).map Char.toLower ∉ recognizedTokens) :
    handleCommand env input st = (.ok st, [.logged (str "Unknown command.")]) := by
  simp only [recognizedTokens, List.mem_cons, List.not_mem_nil, or_false, not_or] at h
  obtain ⟨h1, h2, h3, h4, h5, h6, h7, h8, h9, h10, h11, h12, h13, h14, h15, h16⟩ := h
  unfold handleCommand
  simp [beq_eq_false_iff_ne.mpr h1, beq_eq_false_iff_ne.mpr h2,
    beq_eq_false_iff_ne.mpr h3, beq_eq_false_iff_ne.mpr h4, beq_eq_false_iff_ne.mpr h5,
    beq_eq_false_iff_ne.mpr h6, beq_eq_false_iff_ne.mpr h7, beq_eq_false_iff_ne.mpr h8,
    beq_eq_false_iff_ne.mpr h9, beq_eq_false_iff_ne.mpr h10, beq_eq_false_iff_ne.mpr h11,
    beq_eq_false_iff_ne.mpr h12, beq_eq_false_iff_ne.mpr h13, beq_eq_false_iff_ne.mpr h14,
    beq_eq_false_iff_ne.mpr h15, beq_eq_false_iff_ne.mpr h16]

/-- Witness for C9 at the unrecognized command line `"xyz 1"`. -/
theorem c9_unknown_command_is_noop_witness :
    (firstSpaceToken (str "xyz 1")).map Char.toLower ∉ recognizedTokens ∧
    handleCommand ⟨true, true⟩ (str "xyz 1") ⟨some ⟨7, 1, true⟩, false, false, 9⟩ =
      (.ok ⟨some ⟨7, 1, true⟩, false, false, 9⟩, [.logged (str "Unknown command.")]) :=
  ⟨by decide,
   c9_unknown_command_is_noop ⟨true, true⟩ (str "xyz 1")
     ⟨some ⟨7, 1, true⟩, false, false, 9⟩ (by decide)⟩

/-! ## C6: positional-argument composition -/

/-- `indexOf` of the first occurrence after a clean block. -/
theorem firstIdxOf_append_cons (x : Str) (a rest : List Str) (ha : x ∉ a) :
    firstIdxOf x (a ++ x :: rest) = a.length := by
  induction a with
  | nil => simp [firstIdxOf]
  | cons b a2 ih =>
    rw [List.mem_cons, not_or] at ha
    have hb : (b == x) = false := beq_eq_false_iff_ne.mpr (fun hx => ha.1 hx.symm)
    simp [firstIdxOf, hb, ih ha.2]

/-- Dropping past an initial block. -/
theorem drop_append_len (a l : List Str) (k : Nat) :
    (a ++ l).drop (a.length + k) = l.drop k := by
  induction a with
  | nil => simp
  | cons b a2 ih => simpa [Nat.succ_add] using ih

/-- C6 counterexample: with the positional arguments `["--", "a"]`
(a single `"--"` separator), the claim predicts the CLI JVM-argument
list `["a"]` and an empty CLI application-argument list — but `init`
computes an empty JVM slice (between the first and last `"--"`, which
coincide) and routes `"a"` into the application arguments. -/
theorem c6_counterexample_single_separator :
    initArgs [] [] [str "--", str "a"] = ([], [str "a"]) ∧
    (initArgs [] [] [str "--", str "a"]).1 ≠ [str "a"] := by
  constructor
  · rfl
  · intro h
    simp [initArgs, jsSlice, firstIdxOf, lastIdxOf, str] at h

/-- C6 (amended): the CLI JVM arguments are the positional arguments
strictly between the first and the last `"--"`, and the CLI
application arguments are those after the last `"--"`; with a single
`"--"` the JVM slice is empty and the arguments after it are
application arguments; with no `"--"` all positional arguments are
application arguments.  In each case the settings-configured list
comes first in the concatenation. -/
theorem c6_argument_composition (sj sp : List Str) :
    (∀ a b c : List Str, str "--" ∉ a → str "--" ∉ b → str "--" ∉ c →
      initArgs sj sp (a ++ str "--" :: b ++ str "--" :: c) = (sj ++ b, sp ++ c)) ∧
    (∀ a b : List Str, str "--" ∉ a → str "--" ∉ b →
      initArgs sj sp (a ++ str "--" :: b) = (sj, sp ++ b)) ∧
    (∀ l : List Str, str "--" ∉ l → initArgs sj sp l = (sj, sp ++ l)) := by
  refine ⟨fun a b c ha hb hc => ?_, fun a b ha hb => ?_, fun l hl => ?_⟩
  · have hsplit : a ++ str "--" :: b ++ str "--" :: c =
        a ++ str "--" :: (b ++ str "--" :: c) := by simp
    have hmem : str "--" ∈ a ++ str "--" :: b ++ str "--" :: c := by simp
    have hfirst : firstIdxOf (str "--") (a ++ str "--" :: b ++ str "--" :: c) = a.length := by
      rw [hsplit]; exact firstIdxOf_append_cons _ a _ ha
    have hrev : (a ++ str "--" :: b ++ str "--" :: c).reverse =
        c.reverse ++ str "--" :: (b.reverse ++ str "--" :: a.reverse) := by
      simp
    have hlast : lastIdxOf (str "--") (a ++ str "--" :: b ++ str "--" :: c) =
        a.length + b.length + 1 := by
      unfold lastIdxOf
      rw [hrev, firstIdxOf_append_cons _ _ _ (by simp; exact hc)]
      simp only [List.length_append, List.length_cons, List.length_reverse]
      omega
    unfold initArgs
    rw [if_pos (by simpa [List.contains] using hmem)]
    rw [hfirst, hlast]
    have hdrop1 : (a ++ str "--" :: b ++ str "--" :: c).drop (a.length + 1) =
        b ++ str "--" :: c := by
      have hsp : a ++ str "--" :: b ++ str "--" :: c =
          (a ++ [str "--"]) ++ (b ++ str "--" :: c) := by simp
      rw [hsp]
      apply List.drop_left'
      simp
    have hdrop2 : (a ++ str "--" :: b ++ str "--" :: c).drop (a.length + b.length + 1 + 1) =
        c := by
      have hsp : a ++ str "--" :: b ++ str "--" :: c =
          (a ++ str "--" :: b ++ [str "--"]) ++ c := by simp
      rw [hsp]
      apply List.drop_left'
      simp
      omega
    unfold jsSlice
    rw [hdrop1, hdrop2]
    have htake : (b ++ str "--" :: c).take (a.length + b.length + 1 - (a.length + 1)) = b := by
      have : a.length + b.length + 1 - (a.length + 1) = b.length := by omega
      rw [this]
      exact List.take_left b (str "--" :: c)
    rw [htake]
  · have hmem : str "--" ∈ a ++ str "--" :: b := by simp
    have hfirst : firstIdxOf (str "--") (a ++ str "--" :: b) = a.length :=
      firstIdxOf_append_cons _ a _ ha
    have hrev : (a ++ str "--" :: b).reverse = b.reverse ++ str "--" :: a.reverse := by simp
    have hlast : lastIdxOf (str "--") (a ++ str "--" :: b) = a.length := by
      unfold lastIdxOf
      rw [hrev, firstIdxOf_append_cons _ _ _ (by simp; exact hb)]
      simp only [List.length_append, List.length_cons, List.length_reverse]
      omega
    unfold initArgs
    rw [if_pos (by simpa [List.contains] using hmem)]
    rw [hfirst, hlast]
    have hdrop : (a ++ str "--" :: b).drop (a.length + 1) = b := by
      have hsp : a ++ str "--" :: b = (a ++ [str "--"]) ++ b := by simp
      rw [hsp]
      apply List.drop_left'
      simp
    unfold jsSlice
    rw [hdrop]
    have : a.length - (a.length + 1) = 0 := by omega
    simp [this]
  · unfold initArgs
    rw [if_neg]
    simp only [List.contains, Bool.not_eq_true]
    rw [List.elem_eq_mem]
    simpa using hl

/-- Witness for C6's amended theorem at concrete argument lists. -/
theorem c6_argument_composition_witness :
    str "--" ∉ ([str "x"] : List Str) ∧ str "--" ∉ ([str "a"] : List Str) ∧
    str "--" ∉ ([str "b"] : List Str) ∧
    initArgs [str "J"] [str "P"]
        ([str "x"] ++ str "--" :: [str "a"] ++ str "--" :: [str "b"]) =
      ([str "J"] ++ [str "a"], [str "P"] ++ [str "b"]) :=
  ⟨by decide, by decide, by decide,
   (c6_argument_composition [str "J"] [str "P"]).1 [str "x"] [str "a"] [str "b"]
     (by decide) (by decide) (by decide)⟩

/-! ## C3: download -/

/-- Inserting a path makes it exist. -/
theorem existsPath_insert_self (p : Str) (fs : FsPaths) :
    existsPath p (insertPath p fs) = true := by
  unfold existsPath insertPath
  by_cases hc : fs.contains p = true
  · rw [if_pos hc]
    exact hc
  · rw [if_neg hc]
    simp [List.contains_cons]

/-- Inserting a different path does not affect existence. -/
theorem existsPath_insert_other (q p : Str) (fs : FsPaths) (h : q ≠ p) :
    existsPath q (insertPath p fs) = existsPath q fs := by
  unfold existsPath insertPath
  by_cases hc : fs.contains p = true
  · rw [if_pos hc]
  · rw [if_neg hc]
    have hb : (q == p) = false := beq_eq_false_iff_ne.mpr h
    rw [List.contains_cons, hb, Bool.false_or]

/-- The jar name produced by a successful `getDownloadUrl`. -/
theorem getDownloadUrl_ok (redirectRes : Option HttpResponse) (v : VersionRec)
    (fam : FamilyName) (n jarName : Str)
    (ht : v.versionType = some fam) (hn : v.versionNumber = some n)
    (h : getDownloadUrl redirectRes v = some (.ok jarName)) :
    jarName = str "v" ++ prefixOf fam ++ n ++ str ".jar" := by
  unfold getDownloadUrl at h
  rw [ht, hn] at h
  dsimp only at h
  by_cases hl : (n == latestTok) = true
  · rw [if_pos hl] at h
    exact absurd h (by simp)
  · rw [if_neg hl] at h
    cases redirectRes with
    | none => exact absurd h (by simp)
    | some res =>
      dsimp only at h
      cases hro : redirectOutcomeToExcept (resolveRedirect res) with
      | error e => rw [hro] at h; exact absurd h (by simp)
      | ok u =>
        rw [hro] at h
        dsimp only at h
        exact (Except.ok.inj (Option.some.inj h)).symm

/-- C3 counterexample: a raw network error on the download GET (the
request emits `error`, which no listener handles, and no response
ever arrives) does not make `download` return `false` — the promise
never settles and the unhandled `error` event kills the launcher
process, so `download` never returns at all.  This refutes the
claim's `network error ⇒ returns false` conjunct at this concrete
input. -/
theorem c3_counterexample_network_error :
    download ⟨some ⟨302, some (str "u")⟩, none, true⟩
      ⟨str "/data/versions/vbe-23456.jar", false, false, some .be, some (str "23456")⟩
      (str "/data/versions") [] = none ∧
    (download ⟨some ⟨302, some (str "u")⟩, none, true⟩
      ⟨str "/data/versions/vbe-23456.jar", false, false, some .be, some (str "23456")⟩
      (str "/data/versions") []).map Prod.snd ≠ some false := by
  refine ⟨rfl, ?_⟩
  intro h
  rw [show download ⟨some ⟨302, some (str "u")⟩, none, true⟩
      ⟨str "/data/versions/vbe-23456.jar", false, false, some .be, some (str "23456")⟩
      (str "/data/versions") [] = none from rfl] at h
  exact absurd h (by simp)

/-- C3 (amended): for a family-resolved, non-source `Version` whose
standard artifact path is not yet on disk, whenever `download`
returns at all, it returns `true` exactly when the file exists at the
final path afterwards; on every failure that surfaces as a thrown
error or a settled (rejected) promise — redirect-resolution
rejection, 404 or other non-200 status, rename rejection — it returns
`false` and the final path, as opposed to the `.tmp` path the body
streams to, still holds no file.  A raw network error on either GET
is the one failure the source does not catch: the request's `error`
event has no listener, so the process crashes instead of `download`
returning `false` (see the counterexample). -/
theorem c3_download_true_iff_exists (env : DlEnv) (v : VersionRec) (folderPath : Str)
    (fs : FsPaths) (fam : FamilyName) (n : Str) (res : FsPaths × Bool)
    (ht : v.versionType = some fam)
    (hn : v.versionNumber = some n)
    (hs : v.isSourceDirectory = false)
    (hpath : v.path = pathJoin folderPath (str "v" ++ prefixOf fam ++ n ++ str ".jar"))
    (hnew : existsPath (jarFilePath v) fs = false)
    (hret : download env v folderPath fs = some res) :
    (res.2 = true ↔ existsPath (jarFilePath v) res.1 = true) ∧
    (res.2 = false → existsPath (jarFilePath v) res.1 = false) := by
  have hjar : jarFilePath v = v.path := by simp [jarFilePath, hs]
  rw [hjar] at hnew ⊢
  unfold download at hret
  cases hget : getDownloadUrl env.assetRedirect v with
  | none =>
    rw [hget] at hret
    exact absurd hret (by simp)
  | some r0 =>
    rw [hget] at hret
    cases r0 with
    | error e =>
      dsimp only at hret
      have hres : res = (fs, false) := (Option.some.inj hret).symm
      subst hres
      simp [hnew]
    | ok jarName =>
      have hjn := getDownloadUrl_ok env.assetRedirect v fam n jarName ht hn hget
      subst hjn
      dsimp only at hret
      rw [← hpath] at hret
      cases hst : env.httpStatus with
      | none =>
        rw [hst] at hret
        exact absurd hret (by simp)
      | some status =>
        rw [hst] at hret
        dsimp only at hret
        have hne : v.path ≠ v.path ++ str ".tmp" := by
          intro hcontr
          have hlen := congrArg List.length hcontr
          simp [str] at hlen
        have h1 : existsPath v.path (insertPath (v.path ++ str ".tmp") fs) =
            existsPath v.path fs :=
          existsPath_insert_other _ _ _ hne
        by_cases h404 : status = 404
        · rw [if_pos h404] at hret
          have hres : res = (insertPath (v.path ++ str ".tmp") fs, false) :=
            (Option.some.inj hret).symm
          subst hres
          simp [h1, hnew]
        · rw [if_neg h404] at hret
          by_cases h200 : status = 200
          · rw [if_neg (not_not_intro h200)] at hret
            by_cases hren : env.renameOk = true
            · rw [if_pos hren] at hret
              have hres : res =
                  (insertPath v.path
                    (removePath (v.path ++ str ".tmp")
                      (insertPath (v.path ++ str ".tmp") fs)), true) :=
                (Option.some.inj hret).symm
              subst hres
              simp [existsPath_insert_self]
            · rw [if_neg hren] at hret
              have hres : res = (insertPath (v.path ++ str ".tmp") fs, false) :=
                (Option.some.inj hret).symm
              subst hres
              simp [h1, hnew]
          · rw [if_pos h200] at hret
            have hres : res = (insertPath (v.path ++ str ".tmp") fs, false) :=
              (Option.some.inj hret).symm
            subst hres
            simp [h1, hnew]

/-- Witness for C3: a successful download of `be-23456` into an empty
versions directory, where `download` completes with `true` and the
file is at the final path. -/
theorem c3_download_true_iff_exists_witness :
    (⟨str "/data/versions/vbe-23456.jar", false, false, some .be,
        some (str "23456")⟩ : VersionRec).versionType = some .be ∧
    (⟨str "/data/versions/vbe-23456.jar", false, false, some .be,
        some (str "23456")⟩ : VersionRec).path =
      pathJoin (str "/data/versions") (str "v" ++ prefixOf .be ++ str "23456" ++ str ".jar") ∧
    download ⟨some ⟨302, some (str "u")⟩, some 200, true⟩
      ⟨str "/data/versions/vbe-23456.jar", false, false, some .be, some (str "23456")⟩
      (str "/data/versions") [] =
      some ([str "/data/versions/vbe-23456.jar"], true) ∧
    ((([str "/data/versions/vbe-23456.jar"], true) : FsPaths × Bool).2 = true ↔
      existsPath
        (jarFilePath ⟨str "/data/versions/vbe-23456.jar", false, false, some .be,
          some (str "23456")⟩)
        (([str "/data/versions/vbe-23456.jar"], true) : FsPaths × Bool).1 = true) ∧
    ((([str "/data/versions/vbe-23456.jar"], true) : FsPaths × Bool).2 = false →
      existsPath
        (jarFilePath ⟨str "/data/versions/vbe-23456.jar", false, false, some .be,
          some (str "23456")⟩)
        (([str "/data/versions/vbe-23456.jar"], true) : FsPaths × Bool).1 = false) :=
  ⟨rfl, rfl, rfl,
   (c3_download_true_iff_exists ⟨some ⟨302, some (str "u")⟩, some 200, true⟩
     ⟨str "/data/versions/vbe-23456.jar", false, false, some .be, some (str "23456")⟩
     (str "/data/versions") [] .be (str "23456")
     ([str "/data/versions/vbe-23456.jar"], true) rfl rfl rfl rfl rfl rfl).1,
   (c3_download_true_iff_exists ⟨some ⟨302, some (str "u")⟩, some 200, true⟩
     ⟨str "/data/versions/vbe-23456.jar", false, false, some .be, some (str "23456")⟩
     (str "/data/versions") [] .be (str "23456")
     ([str "/data/versions/vbe-23456.jar"], true) rfl rfl rfl rfl rfl rfl).2⟩

/-! ## C2: the "latest" rewrite -/

/-- A non-empty `takeWhile` result starts with an element satisfying
the predicate. -/
theorem takeWhile_head (f : Char → Bool) (s : Str)
    (hne : (s.takeWhile f).isEmpty = false) :
    ∃ hd t, s.takeWhile f = hd :: t ∧ f hd = true := by
  cases s with
  | nil => simp at hne
  | cons c cs =>
    rw [List.takeWhile_cons] at hne ⊢
    by_cases hc : f c = true
    · exact ⟨c, cs.takeWhile f, by rw [if_pos hc], hc⟩
    · rw [if_neg hc] at hne
      simp at hne

/-- A successful `(\d+)` capture starts with a digit. -/
theorem digitsCap_digit_head (s r : Str) (h : digitsCap s = some r) :
    ∃ hd t, r = hd :: t ∧ hd.isDigit = true := by
  unfold digitsCap at h
  by_cases he : (s.takeWhile Char.isDigit).isEmpty = true
  · rw [if_pos he] at h
    exact absurd h (by simp)
  · rw [if_neg he] at h
    obtain ⟨hd, t, ht, hdig⟩ :=
      takeWhile_head Char.isDigit s (Bool.not_eq_true _ ▸ he)
    exact ⟨hd, t, by rw [← Option.some.inj h, ht], hdig⟩

/-- A successful `(\d+(?:\.\d)?)` capture starts with a digit. -/
theorem decimalCap_digit_head (s r : Str) (h : decimalCap s = some r) :
    ∃ hd t, r = hd :: t ∧ hd.isDigit = true := by
  unfold decimalCap at h
  by_cases he : (s.takeWhile Char.isDigit).isEmpty = true
  · rw [if_pos he] at h
    exact absurd h (by simp)
  · rw [if_neg he] at h
    obtain ⟨hd, t, ht, hdig⟩ :=
      takeWhile_head Char.isDigit s (Bool.not_eq_true _ ▸ he)
    rw [ht] at h
    cases hdrop : s.drop (hd :: t).length with
    | nil =>
      rw [hdrop] at h
      exact ⟨hd, t, (Option.some.inj h).symm, hdig⟩
    | cons c2 rest2 =>
      rw [hdrop] at h
      cases rest2 with
      | nil =>
        exact ⟨hd, t, (Option.some.inj h).symm, hdig⟩
      | cons c3 rest3 =>
        dsimp only at h
        by_cases hc : c2 = '.' ∧ c3.isDigit = true
        · rw [if_pos hc] at h
          refine ⟨hd, t ++ [c2, c3], ?_, hdig⟩
          rw [← Option.some.inj h]
          exact List.cons_append hd t [c2, c3]
        · rw [if_neg hc] at h
          exact ⟨hd, t, (Option.some.inj h).symm, hdig⟩

/-- A hit of the lookbehind scan inherits the capture's shape. -/
theorem execLookbehind_digit_head (lb : Str) (cap : Str → Option Str)
    (hcap : ∀ s r, cap s = some r → ∃ hd t, r = hd :: t ∧ hd.isDigit = true) :
    ∀ (subject rprev r : Str), execLookbehind lb cap rprev subject = some r →
      ∃ hd t, r = hd :: t ∧ hd.isDigit = true := by
  intro subject
  induction subject with
  | nil => intro rprev r h; simp [execLookbehind] at h
  | cons c rest ih =>
    intro rprev r h
    rw [execLookbehind] at h
    by_cases hlb : (rprev.take lb.length == lb.reverse) = true
    · rw [if_pos hlb] at h
      cases hcapr : cap (c :: rest) with
      | some r2 =>
        rw [hcapr] at h
        exact Option.some.inj h ▸ hcap (c :: rest) r2 hcapr
      | none => rw [hcapr] at h; exact ih (c :: rprev) r h
    · rw [if_neg hlb] at h
      exact ih (c :: rprev) r h

/-- A number extracted by any family's latest-lookup pattern starts
with a digit, so it is never the literal `"latest"`. -/
theorem execLatestPattern_not_latest (fam : FamilyName) (url n : Str)
    (h : execLatestPattern fam url = some n) : n ≠ latestTok := by
  have hdig : ∃ hd t, n = hd :: t ∧ hd.isDigit = true := by
    cases fam with
    | vanilla => exact execLookbehind_digit_head _ _ decimalCap_digit_head url [] n h
    | foo => exact execLookbehind_digit_head _ _ digitsCap_digit_head url [] n h
    | fooV6 => exact execLookbehind_digit_head _ _ digitsCap_digit_head url [] n h
    | be => exact execLookbehind_digit_head _ _ digitsCap_digit_head url [] n h
  obtain ⟨hd, t, hn, hdig⟩ := hdig
  intro hcontr
  rw [hcontr] at hn
  have : hd = 'l' := (List.cons.injEq .. ▸ hn.symm).1
  rw [this] at hdig
  exact absurd hdig (by decide)

/-- A successful `getLatestVersion` yields a digit-led number. -/
theorem getLatestVersion_ok_not_latest (latestResponse : FamilyName → HttpResponse)
    (fam : FamilyName) (n : Str) (h : getLatestVersion latestResponse fam = .ok n) :
    n ≠ latestTok := by
  unfold getLatestVersion at h
  cases hro : redirectOutcomeToExcept (resolveRedirect (latestResponse fam)) with
  | error e => rw [hro] at h; exact absurd h (by simp)
  | ok url =>
    rw [hro] at h
    dsimp only at h
    cases hp : execLatestPattern fam url with
    | none => rw [hp] at h; exact absurd h (by simp)
    | some m =>
      rw [hp] at h
      dsimp only at h
      exact Except.ok.inj h ▸ execLatestPattern_not_latest fam url m hp

/-- The registry scan on `prefix + "latest"` selects the owning family
with the literal token as the number (closed computation per family). -/
theorem scanFamilies_latest (fam : FamilyName) :
    scanFamilies (prefixOf fam ++ latestTok) = some (fam, latestTok) := by
  cases fam <;> rfl

/-- A filesystem oracle on which no path exists (concrete scenarios
never reach the custom branch, so its answers are irrelevant). -/
def emptyFS : FSModel := ⟨fun _ => false, fun _ => false, fun _ => false⟩

/-- Redirect oracle of concrete scenario B: every latest-lookup URL
redirects to the BE tag page for build 23456. -/
def beLatestResp : FamilyName → HttpResponse := fun _ =>
  ⟨302, some (str "https://github.com/Anuken/MindustryBuilds/releases/tag/23456")⟩

/-- C2: resolving `prefix + "latest"` (when it is not a custom name)
only succeeds by rewriting the stored number to the concrete value
extracted from the redirect target of the family's latest-lookup URL —
the resulting number is never the literal `"latest"` and the artifact
path embeds the concrete number.  In particular (scenario B), for
family `be` with a redirect target containing `/tag/23456` and
versions folder `/data/versions`, the resolved number is `23456` and
the path is `/data/versions/vbe-23456.jar`. -/
theorem c2_latest_rewritten_before_path :
    (∀ (fam : FamilyName) (fsm : FSModel) (latestResponse : FamilyName → HttpResponse)
       (custom : List (Str × Str)) (folder : Str) (r : VersionRec),
      lookupTruthy custom (prefixOf fam ++ latestTok) = none →
      fromInput fsm latestResponse custom folder (prefixOf fam ++ latestTok) = .ok r →
      ∃ n, getLatestVersion latestResponse fam = .ok n ∧ n ≠ latestTok ∧
        r.versionNumber = some n ∧ r.versionType = some fam ∧
        r.path = pathJoin folder (str "v" ++ prefixOf fam ++ n ++ str ".jar")) ∧
    fromInput emptyFS beLatestResp [] (str "/data/versions") (str "be-latest") =
      .ok ⟨str "/data/versions/vbe-23456.jar", false, false, some .be,
        some (str "23456")⟩ := by
  constructor
  · intro fam fsm latestResponse custom folder r hl h
    unfold fromInput at h
    rw [hl] at h
    dsimp only at h
    rw [scanFamilies_latest fam] at h
    simp only [beq_self_eq_true, if_true] at h
    cases hg : getLatestVersion latestResponse fam with
    | error e => rw [hg] at h; exact absurd h (by simp)
    | ok n =>
      rw [hg] at h
      dsimp only at h
      have hr := Except.ok.inj h
      refine ⟨n, rfl, getLatestVersion_ok_not_latest latestResponse fam n hg, ?_, ?_, ?_⟩
      · rw [← hr]
      · rw [← hr]
      · rw [← hr]
  · rfl

/-- Witness for C2's universal part at concrete scenario B. -/
theorem c2_latest_rewritten_before_path_witness :
    lookupTruthy [] (prefixOf .be ++ latestTok) = none ∧
    fromInput emptyFS beLatestResp [] (str "/data/versions") (prefixOf .be ++ latestTok) =
      .ok ⟨str "/data/versions/vbe-23456.jar", false, false, some .be,
        some (str "23456")⟩ ∧
    (∃ n, getLatestVersion beLatestResp .be = .ok n ∧ n ≠ latestTok ∧
      (⟨str "/data/versions/vbe-23456.jar", false, false, some .be,
        some (str "23456")⟩ : VersionRec).versionNumber = some n ∧
      (⟨str "/data/versions/vbe-23456.jar", false, false, some .be,
        some (str "23456")⟩ : VersionRec).versionType = some .be ∧
      (⟨str "/data/versions/vbe-23456.jar", false, false, some .be,
        some (str "23456")⟩ : VersionRec).path =
        pathJoin (str "/data/versions") (str "v" ++ prefixOf .be ++ n ++ str ".jar")) :=
  ⟨rfl, rfl,
   c2_latest_rewritten_before_path.1 .be emptyFS beLatestResp [] (str "/data/versions")
     ⟨str "/data/versions/vbe-23456.jar", false, false, some .be, some (str "23456")⟩
     rfl rfl⟩

/-! ## C1: family resolution for explicit numbers -/

/-- A string with a non-empty digit run at its front starts with a
digit. -/
theorem head_of_takeWhile (f : Char → Bool) (s : Str)
    (hne : (s.takeWhile f).isEmpty = false) :
    ∃ hd t, s = hd :: t ∧ f hd = true := by
  cases s with
  | nil => simp at hne
  | cons c cs =>
    rw [List.takeWhile_cons] at hne
    by_cases hc : f c = true
    · exact ⟨c, cs, rfl, hc⟩
    · rw [if_neg hc] at hne
      simp at hne

/-- A string accepted by `/^(\d+|latest)$/` starts with a digit or
with `'l'`. -/
theorem intNumOk_head (N : Str) (hv : intNumOk N = true) :
    ∃ hd t, N = hd :: t ∧ (hd.isDigit = true ∨ hd = 'l') := by
  unfold intNumOk at hv
  rw [Bool.or_eq_true] at hv
  rcases hv with h | h
  · rw [Bool.and_eq_true] at h
    obtain ⟨hne, hall⟩ := h
    cases N with
    | nil => simp at hne
    | cons c t =>
      rw [List.all_cons, Bool.and_eq_true] at hall
      exact ⟨c, t, rfl, Or.inl hall.1⟩
  · exact ⟨'l', str "atest", by rw [eq_of_beq h]; rfl, Or.inr rfl⟩

/-- A string accepted by `/^(\d+(?:\.\d+)?|latest)$/` starts with a
digit or with `'l'`. -/
theorem decimalNumOk_head (N : Str) (hv : decimalNumOk N = true) :
    ∃ hd t, N = hd :: t ∧ (hd.isDigit = true ∨ hd = 'l') := by
  unfold decimalNumOk at hv
  rw [Bool.or_eq_true] at hv
  rcases hv with h | h
  · rw [Bool.and_eq_true] at h
    have hne := h.1
    obtain ⟨hd, t, hN, hdig⟩ :=
      head_of_takeWhile Char.isDigit N (by simpa using hne)
    exact ⟨hd, t, hN, Or.inl hdig⟩
  · exact ⟨'l', str "atest", by rw [eq_of_beq h]; rfl, Or.inr rfl⟩

/-- A validator-accepted number string never starts with a character
that is neither a digit nor `'l'`, so such a pattern is not its
prefix. -/
theorem validator_not_prefixed (fam : FamilyName) (N : Str) (c : Char) (cs : Str)
    (hv : numberValidator fam N = true) (hcd : c.isDigit = false) (hcl : c ≠ 'l') :
    (c :: cs).isPrefixOf N = false := by
  have hhead : ∃ hd t, N = hd :: t ∧ (hd.isDigit = true ∨ hd = 'l') := by
    cases fam with
    | vanilla => exact decimalNumOk_head N hv
    | foo => exact intNumOk_head N hv
    | fooV6 => exact intNumOk_head N hv
    | be => exact intNumOk_head N hv
  obtain ⟨hd, t, hN, hcase⟩ := hhead
  subst hN
  apply not_isPrefixOf_head
  rcases hcase with hdig | hl
  · intro hx
    rw [hx] at hdig
    rw [hdig] at hcd
    exact absurd hcd (by simp)
  · intro hx
    rw [hx] at hl
    exact hcl hl

/-- For a validator-accepted number `N`, exactly the owning family
structurally matches `prefix + N` (the four prefixes are mutually
exclusive over validator-conformant remainders). -/
theorem structMatches_table (fam : FamilyName) (N : Str)
    (hv : numberValidator fam N = true) :
    ∀ g, structMatches g (prefixOf fam ++ N) = decide (g = fam) := by
  have hdiag : structMatches fam (prefixOf fam ++ N) = true := by
    unfold structMatches
    rw [isPrefixOf_append_self, removeFirstOcc_append, hv]
    rfl
  intro g
  cases fam with
  | foo =>
    cases g with
    | foo => simp [hdiag]
    | fooV6 =>
      have hpre : (prefixOf .fooV6).isPrefixOf (prefixOf .foo ++ N) = false :=
        validator_not_prefixed .foo N 'v' (str "6-") hv (by decide) (by decide)
      unfold structMatches
      rw [hpre]
      rfl
    | be => rfl
    | vanilla => rfl
  | fooV6 =>
    cases g with
    | foo => rfl
    | fooV6 => simp [hdiag]
    | be => rfl
    | vanilla => rfl
  | be =>
    cases g with
    | foo => rfl
    | fooV6 => rfl
    | be => simp [hdiag]
    | vanilla => rfl
  | vanilla =>
    cases g with
    | foo =>
      have hpre : (prefixOf .foo).isPrefixOf (prefixOf .vanilla ++ N) = false :=
        validator_not_prefixed .vanilla N 'f' (str "oo-") hv (by decide) (by decide)
      unfold structMatches
      rw [hpre]
      rfl
    | fooV6 =>
      have hpre : (prefixOf .fooV6).isPrefixOf (prefixOf .vanilla ++ N) = false :=
        validator_not_prefixed .vanilla N 'f' (str "oo-v6-") hv (by decide) (by decide)
      unfold structMatches
      rw [hpre]
      rfl
    | be =>
      have hpre : (prefixOf .be).isPrefixOf (prefixOf .vanilla ++ N) = false :=
        validator_not_prefixed .vanilla N 'b' (str "e-") hv (by decide) (by decide)
      unfold structMatches
      rw [hpre]
      rfl
    | vanilla => simp [hdiag]

/-- A registry-loop iteration for a non-matching family keeps the
accumulated assignment. -/
theorem scanStep_skip (version : Str) (st : Option (FamilyName × Str)) (g : FamilyName)
    (h : structMatches g version = false) : scanStep version st g = st := by
  unfold structMatches at h
  simp only [scanStep]
  by_cases hp : (prefixOf g).isPrefixOf version = true
  · rw [if_pos hp]
    rw [hp, Bool.true_and] at h
    rw [h]
    simp
  · rw [if_neg hp]

/-- A registry-loop iteration for a matching family overwrites the
accumulated assignment. -/
theorem scanStep_hit (version : Str) (st : Option (FamilyName × Str)) (g : FamilyName)
    (hp : (prefixOf g).isPrefixOf version = true)
    (hval : numberValidator g (removeFirstOcc (prefixOf g) version) = true) :
    scanStep version st g = some (g, removeFirstOcc (prefixOf g) version) := by
  simp only [scanStep]
  rw [if_pos hp, if_pos hval]

/-- The full registry scan on `prefix + N` yields the owning family
and `N` itself. -/
theorem scanFamilies_prefix_self (fam : FamilyName) (N : Str)
    (hv : numberValidator fam N = true) :
    scanFamilies (prefixOf fam ++ N) = some (fam, N) := by
  have htab := structMatches_table fam N hv
  have hskip : ∀ (st : Option (FamilyName × Str)) g, g ≠ fam →
      scanStep (prefixOf fam ++ N) st g = st := by
    intro st g hg
    apply scanStep_skip
    rw [htab g]
    simp [hg]
  have hhit : ∀ st : Option (FamilyName × Str),
      scanStep (prefixOf fam ++ N) st fam = some (fam, N) := by
    intro st
    have := scanStep_hit (prefixOf fam ++ N) st fam
      (isPrefixOf_append_self (prefixOf fam) N)
      (by rw [removeFirstOcc_append]; exact hv)
    rw [removeFirstOcc_append] at this
    exact this
  unfold scanFamilies familyOrder
  simp only [List.foldl_cons, List.foldl_nil]
  cases fam with
  | foo =>
    rw [hhit none, hskip _ .fooV6 (by decide), hskip _ .be (by decide),
      hskip _ .vanilla (by decide)]
  | fooV6 =>
    rw [hskip none .foo (by decide), hhit none, hskip _ .be (by decide),
      hskip _ .vanilla (by decide)]
  | be =>
    rw [hskip none .foo (by decide), hskip _ .fooV6 (by decide), hhit none,
      hskip _ .vanilla (by decide)]
  | vanilla =>
    rw [hskip none .foo (by decide), hskip _ .fooV6 (by decide),
      hskip _ .be (by decide), hhit none]

/-- C1 (amended): for every family `F` and every number string `N`
accepted by `F`'s validator other than the literal `"latest"`,
resolving `F.prefix + N` (when it is not a custom name) selects the
unique — hence first — structurally-matching family and yields a
Version with `versionType = F`, `versionNumber = N`,
`isSourceDirectory = false`, `isCustom = false`, and the standard
artifact path; and a version string matched by no family (and no
custom name) fails with the invalid-version error rather than
returning a default. -/
theorem c1_family_scan_resolution :
    (∀ (fam : FamilyName) (N : Str) (fsm : FSModel)
       (latestResponse : FamilyName → HttpResponse)
       (custom : List (Str × Str)) (folder : Str),
      numberValidator fam N = true → N ≠ latestTok →
      lookupTruthy custom (prefixOf fam ++ N) = none →
      fromInput fsm latestResponse custom folder (prefixOf fam ++ N) =
        .ok ⟨pathJoin folder (str "v" ++ prefixOf fam ++ N ++ str ".jar"),
             false, false, some fam, some N⟩ ∧
      (∀ g, structMatches g (prefixOf fam ++ N) = true → g = fam)) ∧
    (∀ (version : Str) (fsm : FSModel) (latestResponse : FamilyName → HttpResponse)
       (custom : List (Str × Str)) (folder : Str),
      lookupTruthy custom version = none →
      (∀ g, structMatches g version = false) →
      fromInput fsm latestResponse custom folder version =
        .error (str "Invalid version " ++ version)) := by
  constructor
  · intro fam N fsm latestResponse custom folder hv hlat hl
    constructor
    · unfold fromInput
      rw [hl]
      dsimp only
      rw [scanFamilies_prefix_self fam N hv]
      dsimp only
      rw [if_neg (ne_true_of_eq_false (beq_eq_false_iff_ne.mpr hlat))]
    · intro g hg
      have := structMatches_table fam N hv g
      rw [hg] at this
      exact of_decide_eq_true this.symm
  · intro version fsm latestResponse custom folder hl hno
    have hscan : scanFamilies version = none := by
      unfold scanFamilies familyOrder
      simp only [List.foldl_cons, List.foldl_nil]
      rw [scanStep_skip version none .foo (hno .foo),
        scanStep_skip version none .fooV6 (hno .fooV6),
        scanStep_skip version none .be (hno .be),
        scanStep_skip version none .vanilla (hno .vanilla)]
    unfold fromInput
    rw [hl]
    dsimp only
    rw [hscan]

/-- C1 counterexample: the literal `"latest"` is accepted by the
`be` family's `numberValidator`, yet resolving `"be-latest"` yields a
Version whose `versionNumber` is the concrete resolved number
(`"23456"` under the scenario-B redirect oracle), not `N` itself — so
the claim fails for `N = "latest"`. -/
theorem c1_counterexample_latest_token :
    numberValidator .be latestTok = true ∧
    lookupTruthy [] (prefixOf .be ++ latestTok) = none ∧
    fromInput emptyFS beLatestResp [] (str "/data/versions") (prefixOf .be ++ latestTok) =
      .ok ⟨str "/data/versions/vbe-23456.jar", false, false, some .be,
        some (str "23456")⟩ ∧
    str "23456" ≠ latestTok :=
  ⟨by decide, rfl, rfl, by decide⟩

/-- Witness for C1 at scenario A (`vanilla 146`, folder
`/data/versions`) together with the no-match error case at `"xyz"`. -/
theorem c1_family_scan_resolution_witness :
    numberValidator .vanilla (str "146") = true ∧
    str "146" ≠ latestTok ∧
    lookupTruthy [] (prefixOf .vanilla ++ str "146") = none ∧
    (fromInput emptyFS beLatestResp [] (str "/data/versions")
        (prefixOf .vanilla ++ str "146") =
      .ok ⟨pathJoin (str "/data/versions")
            (str "v" ++ prefixOf .vanilla ++ str "146" ++ str ".jar"),
           false, false, some .vanilla, some (str "146")⟩ ∧
      (∀ g, structMatches g (prefixOf .vanilla ++ str "146") = true → g = .vanilla)) ∧
    (∀ g, structMatches g (str "xyz") = false) ∧
    fromInput emptyFS beLatestResp [] (str "/data/versions") (str "xyz") =
      .error (str "Invalid version " ++ str "xyz") :=
  ⟨by decide, by decide, rfl,
   c1_family_scan_resolution.1 .vanilla (str "146") emptyFS beLatestResp []
     (str "/data/versions") (by decide) (by decide) rfl,
   (by intro g; cases g <;> decide),
   c1_family_scan_resolution.2 (str "xyz") emptyFS beLatestResp []
     (str "/data/versions") rfl (by intro g; cases g <;> decide)⟩
